import Mathlib

/-!
Verification development for the Timezones Vencord plugin
(`src/index.tsx`, `src/timezones/index.tsx`).

The core under study is a per-user timezone registry backed by a plain
JavaScript object (`userTimezones`), JSON-string persistence through a
settings store (`loadTimezones` / `saveTimezones`), and an
`Intl.DateTimeFormat`-based renderer (`formatUserTime`).

Modelling conventions:
* JavaScript values that can flow through `JSON.parse` are embedded as
  `JsValue`; a plain JS object is a list of own properties.
* Property reads on a plain object follow the prototype chain: a miss on
  own properties can still find an `Object.prototype` member (`toString`,
  `__proto__`, ...), which is a truthy non-string value.  This is the
  real semantics of `userTimezones[userId]` in the source.
* A thrown JS exception is embedded as `Except.error ()`; a function that
  cannot throw is a total Lean function.
* `JSON.parse` / `JSON.stringify` and `Intl.DateTimeFormat` are platform
  facilities, not repository code; they are modelled concretely below at
  the level of detail the source's observable behaviour depends on.
-/

/-- JavaScript values producible by `JSON.parse` of the blobs this plugin
handles: null, booleans, strings, and objects (lists of own properties).
Numbers and arrays never occur in the behaviours under verification and
are omitted from the model. -/
inductive JsValue where
  | null
  | bool (b : Bool)
  | str (s : String)
  | obj (members : List (String × JsValue))

/-- Result of a JS property read `o[k]`:
the own (or JSON-stored) value, an inherited `Object.prototype` member
(a built-in function or object, always truthy and never a valid zone
string), or `undefined`. -/
inductive JsProp where
  | undef
  | val (v : JsValue)
  | protoFn

/-- Property names found on `Object.prototype`, hence visible through the
prototype chain on every plain JS object literal. -/
def protoPropNames : List String :=
  ["constructor", "hasOwnProperty", "isPrototypeOf", "propertyIsEnumerable",
   "toLocaleString", "toString", "valueOf", "__proto__",
   "__defineGetter__", "__defineSetter__", "__lookupGetter__", "__lookupSetter__"]

/-- Own-property lookup on a JS object's member list.  JS objects cannot
hold duplicate keys; on lists with duplicates (which `JSON.parse` of a
duplicate-key text collapses last-wins) the later binding wins. -/
def ownLookup : List (String × JsValue) → String → Option JsValue
  | [], _ => none
  | p :: rest, k =>
    match ownLookup rest k with
    | some v => some v
    | none => if p.1 = k then some p.2 else none

/-- The JS property read `o[k]`.  Reading a property of `null` throws a
TypeError (`Except.error`).  On an object, a miss on own properties still
finds the inherited `Object.prototype` members.  On the primitives the
model covers, boxing exposes the same inherited members. -/
def jsIndex : JsValue → String → Except Unit JsProp
  | JsValue.null, _ => Except.error ()
  | JsValue.obj ms, k =>
    Except.ok (match ownLookup ms k with
      | some v => JsProp.val v
      | none => if k ∈ protoPropNames then JsProp.protoFn else JsProp.undef)
  | JsValue.bool _, k =>
    Except.ok (if k ∈ protoPropNames then JsProp.protoFn else JsProp.undef)
  | JsValue.str _, k =>
    Except.ok (if k ∈ protoPropNames then JsProp.protoFn else JsProp.undef)

/-- JS truthiness of a property-read result, as tested by `if (!tz)`. -/
def jsTruthy : JsProp → Bool
  | JsProp.undef => false
  | JsProp.protoFn => true
  | JsProp.val JsValue.null => false
  | JsProp.val (JsValue.bool b) => b
  | JsProp.val (JsValue.str s) => !(s == "")
  | JsProp.val (JsValue.obj _) => true

/-- Result of JS string conversion of a property-read value, as applied by the
`Intl.DateTimeFormat` option processing to the `timeZone` option and by
template-string interpolation.  Inherited prototype members stringify to
source text of a native function; no such string is a zone identifier. -/
def jsToDisplayString : JsProp → String
  | JsProp.val (JsValue.str s) => s
  | JsProp.val JsValue.null => "null"
  | JsProp.val (JsValue.bool b) => cond b "true" "false"
  | JsProp.val (JsValue.obj _) => "[object Object]"
  | JsProp.protoFn => "function () [native code]"
  | JsProp.undef => "undefined"

/-- Does the member list hold an own property named `k`? -/
def hasKey (ms : List (String × JsValue)) (k : String) : Bool :=
  ms.any (fun p => p.1 == k)

/-- Overwrite the value of every own property named `k` (position kept). -/
def replaceKey : List (String × JsValue) → String → JsValue → List (String × JsValue)
  | [], _, _ => []
  | p :: rest, k, v => (if p.1 = k then (p.1, v) else p) :: replaceKey rest k v

/-- Effect of the JS assignment `o[k] = v` on an object's own members.
If an own data property `k` exists it is overwritten (this includes an
own `"__proto__"` data property created by `JSON.parse`).  Otherwise,
assigning to `"__proto__"` hits the inherited accessor, which ignores a
non-object value: no own property is created.  Any other fresh key is
appended. -/
def objAssign (ms : List (String × JsValue)) (k : String) (v : JsValue) :
    List (String × JsValue) :=
  if hasKey ms k then replaceKey ms k v
  else if k = "__proto__" then ms
  else ms ++ [(k, v)]

/-- The JS assignment `o[k] = v`.  In strict mode (all module code),
assigning a property of `null` or of a primitive throws a TypeError. -/
def jsSetProp : JsValue → String → JsValue → Except Unit JsValue
  | JsValue.obj ms, k, v => Except.ok (JsValue.obj (objAssign ms k v))
  | JsValue.null, _, _ => Except.error ()
  | JsValue.bool _, _, _ => Except.error ()
  | JsValue.str _, _, _ => Except.error ()

/-- The JS statement `delete o[k]`: removes the own property if present,
a no-op otherwise; only own properties are affected.  `delete` on a
property of `null` throws a TypeError. -/
def jsDelete : JsValue → String → Except Unit JsValue
  | JsValue.obj ms, k => Except.ok (JsValue.obj (ms.filter (fun p => p.1 != k)))
  | JsValue.null, _ => Except.error ()
  | JsValue.bool b, _ => Except.ok (JsValue.bool b)
  | JsValue.str s, _ => Except.ok (JsValue.str s)

/-! ## JSON codec (platform model)

Model of `JSON.stringify` / `JSON.parse` on the fragment the plugin's
blobs inhabit: null, booleans, strings (with `"` and `\` escaping), and
objects.  Numbers, arrays, whitespace skipping and `\uXXXX` escapes are
outside the behaviours under verification and are not modelled. -/

/-- The character `{`. -/
def braceO : Char := Char.ofNat 123

/-- The character `}`. -/
def braceC : Char := Char.ofNat 125

/-- JSON escaping of one string character. -/
def escapeChar (c : Char) : List Char :=
  if c = '"' then ['\\', '"']
  else if c = '\\' then ['\\', '\\']
  else [c]

/-- JSON escaping of a string body. -/
def escChars : List Char → List Char
  | [] => []
  | c :: s => escapeChar c ++ escChars s

/-- A JSON string literal: quote, escaped body, quote. -/
def quoteChars (s : List Char) : List Char :=
  '"' :: escChars s ++ ['"']

mutual

/-- Model of `JSON.stringify`, at the character level. -/
def jsonStringifyChars : JsValue → List Char
  | JsValue.null => ['n', 'u', 'l', 'l']
  | JsValue.bool true => ['t', 'r', 'u', 'e']
  | JsValue.bool false => ['f', 'a', 'l', 's', 'e']
  | JsValue.str s => quoteChars s.data
  | JsValue.obj ms => braceO :: memberListChars ms ++ [braceC]

/-- The comma-separated member list of a stringified object. -/
def memberListChars : List (String × JsValue) → List Char
  | [] => []
  | (k, v) :: rest =>
    quoteChars k.data ++ ':' :: jsonStringifyChars v ++
      (match rest with
       | [] => []
       | _ :: _ => ',' :: memberListChars rest)

end

/-- Model of `JSON.stringify`. -/
def jsonStringify (v : JsValue) : String :=
  String.mk (jsonStringifyChars v)

/-- Decode one JSON escape character. -/
def unescapeChar (c : Char) : Option Char :=
  if c = '"' then some '"'
  else if c = '\\' then some '\\'
  else if c = '/' then some '/'
  else if c = 'n' then some (Char.ofNat 10)
  else if c = 't' then some (Char.ofNat 9)
  else if c = 'r' then some (Char.ofNat 13)
  else if c = 'b' then some (Char.ofNat 8)
  else if c = 'f' then some (Char.ofNat 12)
  else none

/-- Consume a JSON string body up to and including the closing quote,
returning the decoded characters and the rest of the input. -/
def parseStringBody : List Char → Option (List Char × List Char)
  | [] => none
  | c :: r =>
    if c = '"' then some ([], r)
    else if c = '\\' then
      match r with
      | [] => none
      | e :: r1 =>
        match unescapeChar e with
        | none => none
        | some d =>
          match parseStringBody r1 with
          | some (s, r2) => some (d :: s, r2)
          | none => none
    else
      match parseStringBody r with
      | some (s, r1) => some (c :: s, r1)
      | none => none

/-- Consume an expected literal keyword tail. -/
def dropKeyword : List Char → List Char → Option (List Char)
  | [], l => some l
  | _ :: _, [] => none
  | k :: ks, c :: l => if c = k then dropKeyword ks l else none

/-- Parsing mode: a JSON value, or an object's member list. -/
inductive PMode where
  | value
  | members

/-- Parser output for the two modes. -/
inductive POut where
  | val (v : JsValue) (rest : List Char)
  | mems (ms : List (String × JsValue)) (rest : List Char)

/-- Recursive-descent JSON parser, fuelled for structural recursion.
In `members` mode it consumes `"key":value` pairs up to and including the
closing `}`. -/
def parseVM : Nat → PMode → List Char → Option POut
  | 0, _, _ => none
  | fuel + 1, PMode.value, l =>
    match l with
    | [] => none
    | c :: r =>
      if c = braceO then
        match r with
        | [] => none
        | d :: r2 =>
          if d = braceC then some (POut.val (JsValue.obj []) r2)
          else
            match parseVM fuel PMode.members (d :: r2) with
            | some (POut.mems ms r3) => some (POut.val (JsValue.obj ms) r3)
            | _ => none
      else if c = '"' then
        match parseStringBody r with
        | some (s, r1) => some (POut.val (JsValue.str (String.mk s)) r1)
        | none => none
      else if c = 'n' then
        match dropKeyword ['u', 'l', 'l'] r with
        | some r1 => some (POut.val JsValue.null r1)
        | none => none
      else if c = 't' then
        match dropKeyword ['r', 'u', 'e'] r with
        | some r1 => some (POut.val (JsValue.bool true) r1)
        | none => none
      else if c = 'f' then
        match dropKeyword ['a', 'l', 's', 'e'] r with
        | some r1 => some (POut.val (JsValue.bool false) r1)
        | none => none
      else none
  | fuel + 1, PMode.members, l =>
    match l with
    | [] => none
    | c :: r =>
      if c = '"' then
        match parseStringBody r with
        | none => none
        | some (k, r1) =>
          match r1 with
          | [] => none
          | d :: r2 =>
            if d = ':' then
              match parseVM fuel PMode.value r2 with
              | some (POut.val v r3) =>
                (match r3 with
                 | [] => none
                 | e :: r4 =>
                   if e = ',' then
                     match parseVM fuel PMode.members r4 with
                     | some (POut.mems ms r5) =>
                       some (POut.mems ((String.mk k, v) :: ms) r5)
                     | _ => none
                   else if e = braceC then some (POut.mems [(String.mk k, v)] r4)
                   else none)
              | _ => none
            else none
      else none

/-- Model of `JSON.parse`: parse a complete value; anything else throws,
modelled as `none`. -/
def jsonParse (s : String) : Option JsValue :=
  match parseVM (s.data.length + 1) PMode.value s.data with
  | some (POut.val v []) => some v
  | _ => none

/-! ## Date/time formatting facility (platform model)

Model of `Intl.DateTimeFormat` at the level the plugin observes.  The
zone database carries one fixed offset per identifier (daylight-saving
transitions are irrelevant to every property below).  Locale data is
modelled by the default-locale spellings for every locale: the output
remains a deterministic function of the inputs, which is the only aspect
the verified properties depend on.  Constructing a formatter with an
unknown `timeZone` throws a RangeError (`Except.error`), exactly as the
platform facility does. -/

/-- Supported zone identifiers with their model offsets in minutes. -/
def supportedTimeZones : List (String × Int) :=
  [("UTC", 0),
   ("America/New_York", -300), ("America/Chicago", -360),
   ("America/Denver", -420), ("America/Los_Angeles", -480),
   ("America/Phoenix", -420), ("America/Anchorage", -540),
   ("Pacific/Honolulu", -600), ("America/Toronto", -300),
   ("America/Vancouver", -480), ("America/Mexico_City", -360),
   ("America/Bogota", -300), ("America/Lima", -300),
   ("America/Santiago", -240), ("America/Sao_Paulo", -180),
   ("America/Argentina/Buenos_Aires", -180), ("America/Caracas", -240),
   ("America/Havana", -300),
   ("Europe/London", 0), ("Europe/Dublin", 0), ("Europe/Lisbon", 0),
   ("Europe/Paris", 60), ("Europe/Berlin", 60), ("Europe/Amsterdam", 60),
   ("Europe/Brussels", 60), ("Europe/Madrid", 60), ("Europe/Rome", 60),
   ("Europe/Vienna", 60), ("Europe/Zurich", 60), ("Europe/Stockholm", 60),
   ("Europe/Oslo", 60), ("Europe/Copenhagen", 60), ("Europe/Warsaw", 60),
   ("Europe/Prague", 60), ("Europe/Budapest", 60), ("Europe/Athens", 120),
   ("Europe/Helsinki", 120), ("Europe/Bucharest", 120),
   ("Europe/Istanbul", 180), ("Europe/Moscow", 180), ("Europe/Kiev", 120),
   ("Asia/Dubai", 240), ("Asia/Karachi", 300), ("Asia/Kolkata", 330),
   ("Asia/Dhaka", 360), ("Asia/Bangkok", 420), ("Asia/Ho_Chi_Minh", 420),
   ("Asia/Jakarta", 420), ("Asia/Singapore", 480), ("Asia/Hong_Kong", 480),
   ("Asia/Shanghai", 480), ("Asia/Taipei", 480), ("Asia/Tokyo", 540),
   ("Asia/Seoul", 540), ("Asia/Manila", 480), ("Asia/Kuala_Lumpur", 480),
   ("Asia/Jerusalem", 120), ("Asia/Riyadh", 180), ("Asia/Tehran", 210),
   ("Asia/Tashkent", 300),
   ("Australia/Sydney", 600), ("Australia/Melbourne", 600),
   ("Australia/Brisbane", 600), ("Australia/Adelaide", 570),
   ("Australia/Perth", 480), ("Pacific/Auckland", 720),
   ("Pacific/Fiji", 720),
   ("Africa/Cairo", 120), ("Africa/Johannesburg", 120),
   ("Africa/Lagos", 60), ("Africa/Nairobi", 180),
   ("Africa/Casablanca", 60), ("Africa/Algiers", 60),
   ("Africa/Tunis", 60), ("Africa/Addis_Ababa", 180)]

/-- Offset lookup in the zone database. -/
def lookupZone (tz : String) : Option Int :=
  List.lookup tz supportedTimeZones

/-- Two-digit rendering of minutes. -/
def pad2 (n : Nat) : String :=
  if n < 10 then "0" ++ toString n else toString n

/-- Rendering of a `timeZoneName: "shortOffset"` suffix, e.g. `GMT+2`,
`GMT-5`, `GMT+5:30`. -/
def offsetString (off : Int) : String :=
  let sign := if off < 0 then "-" else "+"
  let a := off.natAbs
  "GMT" ++ sign ++ toString (a / 60) ++
    (if a % 60 = 0 then "" else ":" ++ pad2 (a % 60))

/-- The clock-time portion of the output: hour and minute under the
requested hour cycle (`h23` or `h12` with a meridiem marker), followed by
the optional short-offset suffix. -/
def timeString (h23 : Bool) (h m : Nat) (suffix : Option String) : String :=
  let base :=
    if h23 then toString h ++ ":" ++ pad2 m
    else
      (toString (if h % 12 = 0 then 12 else h % 12)) ++ ":" ++ pad2 m ++
        (if h < 12 then " AM" else " PM")
  match suffix with
  | none => base
  | some s => base ++ " " ++ s

/-- Proleptic-Gregorian civil date from a day count since 1970-01-01
(Howard Hinnant's `civil_from_days`). -/
def civilFromDays (z0 : Int) : Int × Nat × Nat :=
  let z := z0 + 719468
  let era := Int.fdiv z 146097
  let doe := (z - era * 146097).toNat
  let yoe := (doe - doe / 1460 + doe / 36524 - doe / 146096) / 365
  let y := Int.ofNat yoe + era * 400
  let doy := doe - (365 * yoe + yoe / 4 - yoe / 100)
  let mp := (5 * doy + 2) / 153
  let d := doy - (153 * mp + 2) / 5 + 1
  let m := if mp < 10 then mp + 3 else mp - 9
  (if m ≤ 2 then y + 1 else y, m, d)

/-- Weekday spellings, indexed with 1970-01-01 a Thursday. -/
def weekdayName (dayNum : Int) : String :=
  [ "Sunday", "Monday", "Tuesday", "Wednesday",
    "Thursday", "Friday", "Saturday"
  ].getD ((Int.emod (dayNum + 4) 7).toNat) "Sunday"

/-- Month spellings. -/
def monthName (m : Nat) : String :=
  [ "January", "February", "March", "April", "May", "June", "July",
    "August", "September", "October", "November", "December"
  ].getD (m - 1) "January"

/-- The date portion of the long-form output:
`weekday, month day, year`. -/
def dateString (dayNum : Int) : String :=
  let c := civilFromDays dayNum
  weekdayName dayNum ++ ", " ++ monthName c.2.1 ++ " " ++
    toString c.2.2 ++ ", " ++ toString c.1

/-- The `Intl.DateTimeFormat(locale, opts).format(date)` pipeline as the
plugin invokes it.  An unknown `timeZone` makes the constructor throw.
The long form glues the date portion and the clock-time portion with the
default-locale date-time connector, so the time portion appears verbatim
at the end. -/
def intlFormat (locale : String) (withDate : Bool) (h23 : Bool)
    (tz : String) (withOffsetName : Bool) (dateMs : Int) :
    Except Unit String :=
  match lookupZone tz with
  | none => Except.error ()
  | some off =>
    let totalMin : Int := Int.fdiv dateMs 60000 + off
    let dayNum : Int := Int.fdiv totalMin 1440
    let minOfDay : Nat := (Int.fmod totalMin 1440).toNat
    let time := timeString h23 (minOfDay / 60) (minOfDay % 60)
      (if withOffsetName then some (offsetString off) else none)
    let timeTagged := (fun _ : String => time) locale
    Except.ok (if withDate then dateString dayNum ++ " at " ++ timeTagged
               else timeTagged)

/-! ## Plugin state and core operations (from `src/timezones/index.tsx`) -/

/-- The module-level mutable state the core reads and writes:
the `userTimezones` object, the persisted settings entry
`settings.store.storedTimezones` (`none` models an absent value), the
three user-facing settings, the webpack locale getter's result (`none`
when Discord supplies nothing), and the console log. -/
structure PluginState where
  userTimezones : JsValue
  storedTimezones : Option String
  twentyFourHours : Bool
  showInMessage : Bool
  showOffset : Bool
  locale : Option String
  log : List String

/-- The state at plugin definition time: empty registry, default
settings (`storedTimezones` defaults to the literal `"{}"`). -/
def initialState : PluginState :=
  { userTimezones := JsValue.obj []
    storedTimezones := some "\x7b\x7d"
    twentyFourHours := false
    showInMessage := true
    showOffset := false
    locale := none
    log := [] }

/-- Function `loadTimezones` (src/timezones/index.tsx, lines 38-50): read the
blob; if it is a truthy string, `JSON.parse` it into `userTimezones`,
resetting to an empty object on absence, falsiness, or a parse error
(the `try`/`catch` makes the operation total). -/
def loadTimezones (st : PluginState) : PluginState :=
  match st.storedTimezones with
  | none => { st with userTimezones := JsValue.obj [] }
  | some raw =>
    if raw = "" then { st with userTimezones := JsValue.obj [] }
    else
      match jsonParse raw with
      | some v => { st with userTimezones := v }
      | none => { st with userTimezones := JsValue.obj [] }

/-- The warning `saveTimezones` logs when the settings write throws. -/
def saveFailWarning : String :=
  "[Timezones] Failed to save timezones to settings:"

/-- Function `saveTimezones` (src/timezones/index.tsx, lines 52-58): write
`JSON.stringify(userTimezones)` into the settings store.  `writeOk`
models whether the store write succeeds; on failure the `catch` logs a
warning and the operation completes with the blob unchanged. -/
def saveTimezones (st : PluginState) (writeOk : Bool) : PluginState :=
  if writeOk then
    { st with storedTimezones := some (jsonStringify st.userTimezones) }
  else
    { st with log := saveFailWarning :: st.log }

/-- Function `formatUserTime` (src/timezones/index.tsx, lines 157-187): look the
user up in `userTimezones`; a falsy result short-circuits to `null`
(`Except.ok none`); otherwise build an `Intl.DateTimeFormat` from the
Discord locale (falling back to the default `"en-US"`), the `hourCycle`
and `timeZoneName` settings and the stored zone, and format the date.
Lookup on a non-object registry and formatter construction from an
invalid zone throw, and nothing catches them. -/
def formatUserTime (st : PluginState) (userId : String) (dateMs : Int)
    (withDate : Bool) : Except Unit (Option String) :=
  match jsIndex st.userTimezones userId with
  | Except.error e => Except.error e
  | Except.ok tz =>
    if jsTruthy tz = false then Except.ok none
    else
      let locale := st.locale.getD "en-US"
      match intlFormat locale withDate st.twentyFourHours
          (jsToDisplayString tz) st.showOffset dateMs with
      | Except.error e => Except.error e
      | Except.ok out => Except.ok (some out)

/-- The registry lookup `userTimezones[identityId]` (the spec's `get`). -/
def getTimezone (st : PluginState) (userId : String) : Except Unit JsProp :=
  jsIndex st.userTimezones userId

/-- The console message logged by the set action. -/
def setLogMsg (username tz : String) : String :=
  "[Timezones] Set timezone for " ++ username ++ " to " ++ tz

/-- The console message logged by the remove action. -/
def removeLogMsg (username : String) : String :=
  "[Timezones] Removed timezone for " ++ username

/-- The set action of the user context menu (src/timezones/index.tsx,
lines 286-293): `userTimezones[user.id] = zone.tz`, then
`saveTimezones()`, then a console log.  The zone string is the menu
entry's `zone.tz`, passed here as a parameter. -/
def setTimezoneAction (st : PluginState) (userId username tz : String)
    (writeOk : Bool) : Except Unit PluginState :=
  match jsSetProp st.userTimezones userId (JsValue.str tz) with
  | Except.error e => Except.error e
  | Except.ok reg =>
    let st1 := { st with userTimezones := reg }
    let st2 := saveTimezones st1 writeOk
    Except.ok { st2 with log := setLogMsg username tz :: st2.log }

/-- The remove action of the user context menu (src/timezones/index.tsx,
lines 307-311): `delete userTimezones[user.id]`, then `saveTimezones()`,
then a console log. -/
def removeTimezoneAction (st : PluginState) (userId username : String)
    (writeOk : Bool) : Except Unit PluginState :=
  match jsDelete st.userTimezones userId with
  | Except.error e => Except.error e
  | Except.ok reg =>
    let st1 := { st with userTimezones := reg }
    let st2 := saveTimezones st1 writeOk
    Except.ok { st2 with log := removeLogMsg username :: st2.log }

/-- The message-decoration callback (src/timezones/index.tsx, lines
219-242): guard on the `showInMessage` setting and the author id, look
the author up in `userTimezones`, and when the lookup is truthy render
the short and long forms; the result carries (short, tooltip-long, zone)
for the rendered tag.  None of the lookups or format calls is wrapped in
a handler, so their exceptions propagate to the host. -/
def messageDecoration (st : PluginState) (authorId : Option String)
    (timestampMs : Option Int) (nowMs : Int) :
    Except Unit (Option (String × String × String)) :=
  if st.showInMessage = false then Except.ok none
  else
    match authorId with
    | none => Except.ok none
    | some aid =>
      match jsIndex st.userTimezones aid with
      | Except.error e => Except.error e
      | Except.ok tz =>
        if jsTruthy tz = false then Except.ok none
        else
          let ts := timestampMs.getD nowMs
          match formatUserTime st aid ts false with
          | Except.error e => Except.error e
          | Except.ok shortForm =>
            match formatUserTime st aid ts true with
            | Except.error e => Except.error e
            | Except.ok longForm =>
              match shortForm, longForm with
              | some s, some l =>
                Except.ok (some (s, l ++ " (" ++ jsToDisplayString tz ++ ")",
                  jsToDisplayString tz))
              | _, _ => Except.ok none

/-! ## The `src/index.tsx` variant

`src/index.tsx` carries the same three core functions; they are
transcribed here independently so the two variants can be compared. -/

/-- Function `loadTimezones` as written in src/index.tsx, lines 38-50. -/
def loadTimezonesMain (st : PluginState) : PluginState :=
  match st.storedTimezones with
  | none => { st with userTimezones := JsValue.obj [] }
  | some raw =>
    if raw = "" then { st with userTimezones := JsValue.obj [] }
    else
      match jsonParse raw with
      | some v => { st with userTimezones := v }
      | none => { st with userTimezones := JsValue.obj [] }

/-- Function `saveTimezones` as written in src/index.tsx, lines 52-58. -/
def saveTimezonesMain (st : PluginState) (writeOk : Bool) : PluginState :=
  if writeOk then
    { st with storedTimezones := some (jsonStringify st.userTimezones) }
  else
    { st with log := saveFailWarning :: st.log }

/-- Function `formatUserTime` as written in src/index.tsx, lines 195-225. -/
def formatUserTimeMain (st : PluginState) (userId : String) (dateMs : Int)
    (withDate : Bool) : Except Unit (Option String) :=
  match jsIndex st.userTimezones userId with
  | Except.error e => Except.error e
  | Except.ok tz =>
    if jsTruthy tz = false then Except.ok none
    else
      let locale := st.locale.getD "en-US"
      match intlFormat locale withDate st.twentyFourHours
          (jsToDisplayString tz) st.showOffset dateMs with
      | Except.error e => Except.error e
      | Except.ok out => Except.ok (some out)

/-! ## Registry operation sequences -/

/-- One registry mutation as the spec's §8 round-trip property ranges
over it: a set or a remove, together with whether its persistence write
succeeds. -/
inductive RegOp where
  | set (userId tz : String) (writeOk : Bool)
  | remove (userId : String) (writeOk : Bool)

/-- Apply one operation through the context-menu actions.  Starting from
an object-valued registry the actions never throw; the error branch
keeps the state and is unreachable in the sequences considered. -/
def applyOp (st : PluginState) (op : RegOp) : PluginState :=
  match op with
  | RegOp.set userId tz writeOk =>
    match setTimezoneAction st userId "" tz writeOk with
    | Except.ok st1 => st1
    | Except.error _ => st
  | RegOp.remove userId writeOk =>
    match removeTimezoneAction st userId "" writeOk with
    | Except.ok st1 => st1
    | Except.error _ => st

/-- Apply a finite sequence of registry operations. -/
def applyOps (st : PluginState) (ops : List RegOp) : PluginState :=
  ops.foldl applyOp st

/-- All values of a member list are strings (the shape every registry
reachable through the context-menu actions has). -/
def StrEntries (ms : List (String × JsValue)) : Prop :=
  ∀ p ∈ ms, ∃ s, p.2 = JsValue.str s

/-- The registry is an object all of whose values are strings. -/
def GoodReg (st : PluginState) : Prop :=
  ∃ ms, st.userTimezones = JsValue.obj ms ∧ StrEntries ms

/-- A state whose registry holds a forged zone identifier the formatting
facility does not accept. -/
def forgedState : PluginState :=
  { initialState with
    userTimezones := JsValue.obj [("u1", JsValue.str "Mars/Olympus_Mons")] }

/-- A state whose registry maps `"u1"` to Berlin. -/
def berlinState : PluginState :=
  { initialState with
    userTimezones := JsValue.obj [("u1", JsValue.str "Europe/Berlin")] }

/-- The instant 2024-01-15T12:00:00Z in epoch milliseconds. -/
def sampleInstant : Int := 1705320000000

/-! ## Round-trip of the JSON codec on registry-shaped values -/

theorem stringMk_data (s : String) : String.mk s.data = s := rfl

theorem quote_ne_braceO : ('"' : Char) ≠ braceO := by decide

theorem braceC_ne_comma : (braceC : Char) ≠ ',' := by decide

theorem quote_ne_braceC : ('"' : Char) ≠ braceC := by decide

theorem parseStringBody_escChars (s rest : List Char) :
    parseStringBody (escChars s ++ '"' :: rest) = some (s, rest) := by
  induction s with
  | nil =>
    show parseStringBody ('"' :: rest) = some ([], rest)
    unfold parseStringBody
    simp
  | cons c s ih =>
    rw [show escChars (c :: s) = escapeChar c ++ escChars s from rfl]
    by_cases hq : c = '"'
    · subst hq
      rw [show escapeChar '"' = ['\\', '"'] from rfl]
      show parseStringBody ('\\' :: '"' :: (escChars s ++ '"' :: rest)) = _
      unfold parseStringBody
      simp [unescapeChar, ih]
    · by_cases hb : c = '\\'
      · subst hb
        rw [show escapeChar '\\' = ['\\', '\\'] from rfl]
        show parseStringBody ('\\' :: '\\' :: (escChars s ++ '"' :: rest)) = _
        unfold parseStringBody
        simp [unescapeChar, ih]
      · rw [show escapeChar c = if c = '"' then ['\\', '"'] else if c = '\\' then ['\\', '\\'] else [c] from rfl,
          if_neg hq, if_neg hb]
        show parseStringBody (c :: (escChars s ++ '"' :: rest)) = _
        unfold parseStringBody
        simp [hq, hb, ih]

theorem parseVM_string (f : Nat) (s rest : List Char) :
    parseVM (f + 1) PMode.value ('"' :: (escChars s ++ '"' :: rest)) =
      some (POut.val (JsValue.str (String.mk s)) rest) := by
  unfold parseVM
  simp [quote_ne_braceO, parseStringBody_escChars]

/-- One-layer unfolding of the member-list mode of the parser. -/
theorem parseVM_members_eq (f : Nat) (l : List Char) :
    parseVM (f + 1) PMode.members l =
      (match l with
       | [] => none
       | c :: r =>
         if c = '"' then
           match parseStringBody r with
           | none => none
           | some (k, r1) =>
             match r1 with
             | [] => none
             | d :: r2 =>
               if d = ':' then
                 match parseVM f PMode.value r2 with
                 | some (POut.val v r3) =>
                   (match r3 with
                    | [] => none
                    | e :: r4 =>
                      if e = ',' then
                        match parseVM f PMode.members r4 with
                        | some (POut.mems ms r5) =>
                          some (POut.mems ((String.mk k, v) :: ms) r5)
                        | _ => none
                      else if e = braceC then some (POut.mems [(String.mk k, v)] r4)
                      else none)
                 | _ => none
               else none
         else none) := rfl

theorem parseVM_members (ms : List (String × JsValue)) :
    StrEntries ms → ms ≠ [] → ∀ f rest, ms.length + 1 ≤ f →
    parseVM f PMode.members (memberListChars ms ++ braceC :: rest) =
      some (POut.mems ms rest) := by
  induction ms with
  | nil => intro _ hne; exact absurd rfl hne
  | cons hd tail ih =>
    rintro hstr - f rest hf
    obtain ⟨k, v⟩ := hd
    obtain ⟨sv, hsv⟩ := hstr (k, v) (List.mem_cons_self _ _)
    simp only at hsv
    subst hsv
    simp only [List.length_cons] at hf
    obtain ⟨f1, rfl⟩ : ∃ f1, f = f1 + 1 := ⟨f - 1, by omega⟩
    obtain ⟨f2, rfl⟩ : ∃ f2, f1 = f2 + 1 := ⟨f1 - 1, by omega⟩
    cases tail with
    | nil =>
      simp only [memberListChars, jsonStringifyChars, quoteChars,
        List.cons_append, List.append_assoc, List.nil_append, List.append_nil,
        List.singleton_append]
      rw [parseVM_members_eq]
      simp [parseStringBody_escChars, parseVM_string, stringMk_data,
        braceC_ne_comma]
    | cons t ts =>
      have htail := ih (fun p hp => hstr p (List.mem_cons_of_mem _ hp))
        (List.cons_ne_nil t ts) (f2 + 1) rest
        (by simp only [List.length_cons] at hf ⊢; omega)
      simp only [memberListChars, jsonStringifyChars, quoteChars,
        List.cons_append, List.append_assoc, List.nil_append, List.append_nil,
        List.singleton_append] at htail ⊢
      rw [parseVM_members_eq]
      simp [parseStringBody_escChars, parseVM_string, stringMk_data,
        braceC_ne_comma, htail]

/-- One-layer unfolding of the value mode of the parser. -/
theorem parseVM_value_eq (f : Nat) (l : List Char) :
    parseVM (f + 1) PMode.value l =
      (match l with
       | [] => none
       | c :: r =>
         if c = braceO then
           match r with
           | [] => none
           | d :: r2 =>
             if d = braceC then some (POut.val (JsValue.obj []) r2)
             else
               match parseVM f PMode.members (d :: r2) with
               | some (POut.mems ms r3) => some (POut.val (JsValue.obj ms) r3)
               | _ => none
         else if c = '"' then
           match parseStringBody r with
           | some (s, r1) => some (POut.val (JsValue.str (String.mk s)) r1)
           | none => none
         else if c = 'n' then
           match dropKeyword ['u', 'l', 'l'] r with
           | some r1 => some (POut.val JsValue.null r1)
           | none => none
         else if c = 't' then
           match dropKeyword ['r', 'u', 'e'] r with
           | some r1 => some (POut.val (JsValue.bool true) r1)
           | none => none
         else if c = 'f' then
           match dropKeyword ['a', 'l', 's', 'e'] r with
           | some r1 => some (POut.val (JsValue.bool false) r1)
           | none => none
         else none) := rfl

theorem parseVM_obj (ms : List (String × JsValue)) (h : StrEntries ms)
    (f : Nat) (rest : List Char) (hf : ms.length + 2 ≤ f) :
    parseVM f PMode.value (jsonStringifyChars (JsValue.obj ms) ++ rest) =
      some (POut.val (JsValue.obj ms) rest) := by
  obtain ⟨f1, rfl⟩ : ∃ f1, f = f1 + 1 := ⟨f - 1, by omega⟩
  cases ms with
  | nil =>
    simp only [jsonStringifyChars, memberListChars, List.cons_append,
      List.nil_append, List.singleton_append]
    rw [parseVM_value_eq]
    simp
  | cons hd tail =>
    obtain ⟨k, v⟩ := hd
    obtain ⟨sv, hsv⟩ := h (k, v) (List.mem_cons_self _ _)
    simp only at hsv
    subst hsv
    have hmem := parseVM_members ((k, JsValue.str sv) :: tail) h
      (List.cons_ne_nil _ _) f1 rest
      (by simp only [List.length_cons] at hf ⊢; omega)
    simp only [jsonStringifyChars, List.cons_append, List.append_assoc,
      List.singleton_append] at hmem ⊢
    rw [parseVM_value_eq]
    simp only [memberListChars, jsonStringifyChars, quoteChars,
      List.cons_append, List.append_assoc, List.nil_append, List.append_nil,
      List.singleton_append] at hmem ⊢
    simp [hmem, quote_ne_braceO, quote_ne_braceC]

theorem jsonStringifyChars_length_pos (v : JsValue) :
    1 ≤ (jsonStringifyChars v).length := by
  cases v with
  | null => simp [jsonStringifyChars]
  | bool b => cases b <;> simp [jsonStringifyChars]
  | str s => simp [jsonStringifyChars, quoteChars]
  | obj ms => simp [jsonStringifyChars]

theorem memberListChars_length (ms : List (String × JsValue)) :
    ms.length ≤ (memberListChars ms).length := by
  induction ms with
  | nil => simp [memberListChars]
  | cons hd tail ih =>
    obtain ⟨k, v⟩ := hd
    have hv := jsonStringifyChars_length_pos v
    cases tail with
    | nil => simp [memberListChars, quoteChars]
    | cons t ts =>
      rw [show memberListChars ((k, v) :: t :: ts) =
        quoteChars k.data ++ ':' :: jsonStringifyChars v ++
          ',' :: memberListChars (t :: ts) from rfl]
      simp only [List.length_cons, List.length_append] at ih ⊢
      omega

theorem jsonParse_stringify_obj (ms : List (String × JsValue))
    (h : StrEntries ms) :
    jsonParse (jsonStringify (JsValue.obj ms)) = some (JsValue.obj ms) := by
  have hlen : ms.length + 2 ≤
      (jsonStringifyChars (JsValue.obj ms)).length + 1 := by
    have h1 := memberListChars_length ms
    simp only [jsonStringifyChars, List.length_cons, List.length_append,
      List.length_singleton]
    omega
  have hmain := parseVM_obj ms h
    ((jsonStringifyChars (JsValue.obj ms)).length + 1) [] hlen
  rw [List.append_nil] at hmain
  show (match parseVM ((jsonStringifyChars (JsValue.obj ms)).length + 1)
      PMode.value (jsonStringifyChars (JsValue.obj ms)) with
    | some (POut.val v []) => some v
    | _ => none) = some (JsValue.obj ms)
  rw [hmain]

theorem jsonStringify_obj_ne_empty (ms : List (String × JsValue)) :
    jsonStringify (JsValue.obj ms) ≠ "" := by
  intro hcontra
  have h2 : jsonStringifyChars (JsValue.obj ms) = [] :=
    congrArg String.data hcontra
  simp [jsonStringifyChars] at h2

theorem strEntries_replaceKey (ms : List (String × JsValue)) (k : String)
    (tz : String) : StrEntries ms → StrEntries (replaceKey ms k (JsValue.str tz)) := by
  induction ms with
  | nil => intro _ p hp; cases hp
  | cons hd tail ih =>
    intro h p hp
    simp only [replaceKey] at hp
    rcases List.mem_cons.mp hp with h1 | h2
    · subst h1
      split
      · exact ⟨tz, rfl⟩
      · exact h hd (List.mem_cons_self _ _)
    · exact ih (fun q hq => h q (List.mem_cons_of_mem _ hq)) p h2

theorem strEntries_objAssign (ms : List (String × JsValue)) (k tz : String)
    (h : StrEntries ms) : StrEntries (objAssign ms k (JsValue.str tz)) := by
  unfold objAssign
  by_cases h1 : hasKey ms k
  · rw [if_pos h1]; exact strEntries_replaceKey ms k tz h
  · rw [if_neg h1]
    by_cases h2 : k = "__proto__"
    · rw [if_pos h2]; exact h
    · rw [if_neg h2]
      intro p hp
      rcases List.mem_append.mp hp with h3 | h4
      · exact h p h3
      · simp at h4; subst h4; exact ⟨tz, rfl⟩

theorem strEntries_filter (ms : List (String × JsValue))
    (q : String × JsValue → Bool) (h : StrEntries ms) :
    StrEntries (ms.filter q) :=
  fun p hp => h p (List.mem_of_mem_filter hp)

/-- Full characterization of the set action on an object-valued registry:
it succeeds, performs the JS assignment in memory, persists exactly when
the write succeeds (logging a warning otherwise), and logs the action. -/
theorem setTimezoneAction_obj (st : PluginState)
    (ms : List (String × JsValue)) (userId username tz : String)
    (writeOk : Bool) (h : st.userTimezones = JsValue.obj ms) :
    ∃ st1, setTimezoneAction st userId username tz writeOk =
        Except.ok st1 ∧
      st1.userTimezones = JsValue.obj (objAssign ms userId (JsValue.str tz)) ∧
      st1.storedTimezones = (if writeOk then
        some (jsonStringify (JsValue.obj (objAssign ms userId (JsValue.str tz))))
        else st.storedTimezones) ∧
      st1.log = setLogMsg username tz ::
        (if writeOk then st.log else saveFailWarning :: st.log) := by
  obtain ⟨ut, blob, tf, si, so, loc, lg⟩ := st
  simp only at h
  subst h
  cases writeOk <;>
    exact ⟨_, rfl, rfl, rfl, rfl⟩

/-- Full characterization of the remove action on an object-valued
registry. -/
theorem removeTimezoneAction_obj (st : PluginState)
    (ms : List (String × JsValue)) (userId username : String)
    (writeOk : Bool) (h : st.userTimezones = JsValue.obj ms) :
    ∃ st1, removeTimezoneAction st userId username writeOk =
        Except.ok st1 ∧
      st1.userTimezones = JsValue.obj (ms.filter (fun p => p.1 != userId)) ∧
      st1.storedTimezones = (if writeOk then
        some (jsonStringify (JsValue.obj (ms.filter (fun p => p.1 != userId))))
        else st.storedTimezones) ∧
      st1.log = removeLogMsg username ::
        (if writeOk then st.log else saveFailWarning :: st.log) := by
  obtain ⟨ut, blob, tf, si, so, loc, lg⟩ := st
  simp only at h
  subst h
  cases writeOk <;>
    exact ⟨_, rfl, rfl, rfl, rfl⟩

theorem goodReg_applyOp (st : PluginState) (op : RegOp) (h : GoodReg st) :
    GoodReg (applyOp st op) := by
  obtain ⟨ms, hreg, hstr⟩ := h
  cases op with
  | set userId tz writeOk =>
    obtain ⟨st1, hact, hut, -, -⟩ :=
      setTimezoneAction_obj st ms userId "" tz writeOk hreg
    refine ⟨objAssign ms userId (JsValue.str tz), ?_,
      strEntries_objAssign ms userId tz hstr⟩
    simp only [applyOp]
    rw [hact]
    exact hut
  | remove userId writeOk =>
    obtain ⟨st1, hact, hut, -, -⟩ :=
      removeTimezoneAction_obj st ms userId "" writeOk hreg
    refine ⟨ms.filter (fun p => p.1 != userId), ?_,
      strEntries_filter ms _ hstr⟩
    simp only [applyOp]
    rw [hact]
    exact hut

theorem goodReg_applyOps (ops : List RegOp) (st : PluginState)
    (h : GoodReg st) : GoodReg (applyOps st ops) := by
  induction ops generalizing st with
  | nil => exact h
  | cons op ops ih => exact ih (applyOp st op) (goodReg_applyOp st op h)

/-- C4: for every registry state reachable by any finite sequence of
set and remove operations from the empty registry, loading the string
produced by serialization reconstructs exactly the serialized mapping. -/
theorem c4_serialize_load_roundtrip : ∀ ops : List RegOp,
    (loadTimezones (saveTimezones (applyOps initialState ops) true)).userTimezones
      = (applyOps initialState ops).userTimezones := by
  intro ops
  obtain ⟨ms, hreg, hstr⟩ := goodReg_applyOps ops initialState
    ⟨[], rfl, fun p hp => absurd hp (List.not_mem_nil p)⟩
  set S := applyOps initialState ops with hS
  have hsave : saveTimezones S true =
      { S with storedTimezones := some (jsonStringify S.userTimezones) } := rfl
  rw [hsave, hreg]
  unfold loadTimezones
  simp only []
  rw [if_neg (jsonStringify_obj_ne_empty ms), jsonParse_stringify_obj ms hstr]

/-- C8: whenever the short form renders a string, the long form for the
same identity, instant and options renders the same clock time, carried
verbatim as a suffix of the long string (same timezone offset, same
hour-cycle convention, same offset suffix). -/
theorem c8_long_form_contains_short_form (st : PluginState) (userId : String) (dateMs : Int) (s : String)
    (h : formatUserTime st userId dateMs false = Except.ok (some s)) :
    ∃ p, formatUserTime st userId dateMs true = Except.ok (some (p ++ s)) := by
  unfold formatUserTime at h ⊢
  cases hix : jsIndex st.userTimezones userId with
  | error e => rw [hix] at h; simp at h
  | ok tz =>
    rw [hix] at h
    simp only [] at h ⊢
    by_cases ht : jsTruthy tz = false
    · rw [if_pos ht] at h; simp at h
    · rw [if_neg ht] at h ⊢
      unfold intlFormat at h ⊢
      cases hz : lookupZone (jsToDisplayString tz) with
      | none => rw [hz] at h; simp at h
      | some off =>
        rw [hz] at h
        simp only [] at h ⊢
        simp only [if_true] at h ⊢
        simp at h
        subst h
        exact ⟨dateString (Int.fdiv (Int.fdiv dateMs 60000 + off) 1440) ++ " at ", rfl⟩

/-- C1: the spec requires `formatUserTime` to turn an unrecognized zone
identifier into an explicit rendering-failure value distinct from the
absent result, without throwing.  The code does the opposite: the
`Intl.DateTimeFormat` constructor's RangeError propagates uncaught out of
`formatUserTime` and out of the message-decoration callback into the
host.  Evaluated at the failing input: a registry mapping `"u1"` to the
forged zone `"Mars/Olympus_Mons"`. -/
theorem c1_invalid_zone_formatting_throws :
    formatUserTime forgedState "u1" 0 false = Except.error () ∧
    formatUserTime forgedState "u1" 0 true = Except.error () ∧
    messageDecoration forgedState (some "u1") (some 0) 0 = Except.error () :=
  ⟨rfl, rfl, rfl⟩

/-- C2: the spec claims `get` and `format` return absent for every
identityId not in the registry, including `Object.prototype` property
names.  On the empty registry, looking up `"toString"` or `"__proto__"`
finds the inherited prototype member instead of absent, and `format`
then throws from the formatter constructor instead of returning absent;
ordinary unregistered ids do behave as specified. -/
theorem c2_prototype_key_lookup_leak :
    getTimezone initialState "toString" = Except.ok JsProp.protoFn ∧
    getTimezone initialState "__proto__" = Except.ok JsProp.protoFn ∧
    formatUserTime initialState "toString" 0 false = Except.error () ∧
    getTimezone initialState "someUserId" = Except.ok JsProp.undef ∧
    formatUserTime initialState "someUserId" 0 false = Except.ok none :=
  ⟨rfl, rfl, rfl, rfl, rfl⟩

/-- C3: the spec claims set-then-get returns exactly the written
timezoneId for every identityId, including `"__proto__"`.  In the code,
the assignment `userTimezones["__proto__"] = tz` hits the inherited
`__proto__` accessor and silently stores nothing, and the subsequent
lookup returns the inherited prototype member, not the timezoneId. -/
theorem c3_proto_key_set_get_breaks :
    (setTimezoneAction initialState "__proto__" "alice" "Europe/Berlin" true).map
        (fun st => (st.userTimezones, getTimezone st "__proto__")) =
      Except.ok (JsValue.obj [], Except.ok JsProp.protoFn) := rfl

/-- C6: loading the unparseable blob `"not json"` and loading an absent
blob both yield the empty mapping, from any prior state; `loadTimezones`
is a total function, so neither raises. -/
theorem c6_malformed_or_absent_blob_loads_empty : ∀ st : PluginState,
    (loadTimezones { st with storedTimezones := some "not json" }).userTimezones
      = JsValue.obj [] ∧
    (loadTimezones { st with storedTimezones := none }).userTimezones
      = JsValue.obj [] := fun _ => ⟨rfl, rfl⟩

/-- C9: `loadTimezones` validates only parseability, not shape: the
well-formed blob `"null"` loads successfully and installs `null` as the
registry, after which the registry lookup (and hence the decoration
callback) throws a TypeError instead of returning absent. -/
theorem c9_load_null_installs_nonmapping_get_throws :
    (loadTimezones { initialState with storedTimezones := some "null" }).userTimezones
      = JsValue.null ∧
    getTimezone (loadTimezones { initialState with storedTimezones := some "null" })
      "anyUser" = Except.error () ∧
    messageDecoration (loadTimezones { initialState with storedTimezones := some "null" })
      (some "anyUser") (some 0) 0 = Except.error () :=
  ⟨rfl, rfl, rfl⟩

/-- C10: the core functions of the two source variants are extensionally
equal: `formatUserTime`, `loadTimezones` and `saveTimezones` in
src/index.tsx agree with their src/timezones/index.tsx counterparts on
every state and input. -/
theorem c10_source_variants_extensionally_equal :
    (∀ st userId dateMs withDate,
      formatUserTimeMain st userId dateMs withDate =
        formatUserTime st userId dateMs withDate) ∧
    (∀ st, loadTimezonesMain st = loadTimezones st) ∧
    (∀ st writeOk, saveTimezonesMain st writeOk = saveTimezones st writeOk) :=
  ⟨fun _ _ _ _ => rfl, fun _ => rfl, fun _ _ => rfl⟩

/-- C5: after a set or remove whose persistence write succeeds, the
persisted blob equals the serialization of the current in-memory
mapping; when the write fails, the failure is reported to the log before
the operation completes. -/
theorem c5_persisted_blob_matches_registry (st : PluginState) (ms : List (String × JsValue))
    (userId username tz : String) (h : st.userTimezones = JsValue.obj ms) :
    (∃ st1, setTimezoneAction st userId username tz true = Except.ok st1 ∧
      st1.storedTimezones = some (jsonStringify st1.userTimezones)) ∧
    (∃ st2, removeTimezoneAction st userId username true = Except.ok st2 ∧
      st2.storedTimezones = some (jsonStringify st2.userTimezones)) ∧
    (∃ st3, setTimezoneAction st userId username tz false = Except.ok st3 ∧
      saveFailWarning ∈ st3.log) ∧
    (∃ st4, removeTimezoneAction st userId username false = Except.ok st4 ∧
      saveFailWarning ∈ st4.log) := by
  refine ⟨?_, ?_, ?_, ?_⟩
  · obtain ⟨st1, hact, hut, hblob, -⟩ :=
      setTimezoneAction_obj st ms userId username tz true h
    refine ⟨st1, hact, ?_⟩
    rw [hblob, hut]
    simp
  · obtain ⟨st2, hact, hut, hblob, -⟩ :=
      removeTimezoneAction_obj st ms userId username true h
    refine ⟨st2, hact, ?_⟩
    rw [hblob, hut]
    simp
  · obtain ⟨st3, hact, -, -, hlog⟩ :=
      setTimezoneAction_obj st ms userId username tz false h
    refine ⟨st3, hact, ?_⟩
    rw [hlog]
    simp
  · obtain ⟨st4, hact, -, -, hlog⟩ :=
      removeTimezoneAction_obj st ms userId username false h
    refine ⟨st4, hact, ?_⟩
    rw [hlog]
    simp

/-- C7: on an object-valued registry, a set or remove whose persistence
write fails still completes without raising, keeps the in-memory
mutation (no rollback), leaves the blob unchanged and logs the failure;
remove on an absent identityId is a no-op on the mapping and does not
raise. -/
theorem c7_persistence_failure_semantics (st : PluginState) (ms : List (String × JsValue))
    (userId username tz : String) (wk : Bool)
    (h : st.userTimezones = JsValue.obj ms) :
    (∃ st1, setTimezoneAction st userId username tz false = Except.ok st1 ∧
      st1.userTimezones = JsValue.obj (objAssign ms userId (JsValue.str tz)) ∧
      st1.storedTimezones = st.storedTimezones ∧
      saveFailWarning ∈ st1.log) ∧
    (∃ st2, removeTimezoneAction st userId username false = Except.ok st2 ∧
      st2.userTimezones = JsValue.obj (ms.filter (fun p => p.1 != userId)) ∧
      st2.storedTimezones = st.storedTimezones ∧
      saveFailWarning ∈ st2.log) ∧
    (userId ∉ ms.map Prod.fst →
      ∃ st3, removeTimezoneAction st userId username wk = Except.ok st3 ∧
        st3.userTimezones = st.userTimezones) := by
  refine ⟨?_, ?_, ?_⟩
  · obtain ⟨st1, hact, hut, hblob, hlog⟩ :=
      setTimezoneAction_obj st ms userId username tz false h
    refine ⟨st1, hact, hut, ?_, ?_⟩
    · rw [hblob]; simp
    · rw [hlog]; simp
  · obtain ⟨st2, hact, hut, hblob, hlog⟩ :=
      removeTimezoneAction_obj st ms userId username false h
    refine ⟨st2, hact, hut, ?_, ?_⟩
    · rw [hblob]; simp
    · rw [hlog]; simp
  · intro hni
    obtain ⟨st3, hact, hut, -, -⟩ :=
      removeTimezoneAction_obj st ms userId username wk h
    refine ⟨st3, hact, ?_⟩
    rw [hut, h]
    congr 1
    apply List.filter_eq_self.mpr
    intro a ha
    rw [bne_iff_ne]
    intro hne
    exact hni (hne ▸ List.mem_map_of_mem Prod.fst ha)

/-- Witness for C5 at a concrete input: the empty initial registry,
identity `"u1"`, zone `"Europe/Berlin"`. -/
theorem c5_persisted_blob_matches_registry_witness :
    (∃ st1, setTimezoneAction initialState "u1" "alice" "Europe/Berlin" true =
        Except.ok st1 ∧
      st1.storedTimezones = some (jsonStringify st1.userTimezones)) ∧
    (∃ st2, removeTimezoneAction initialState "u1" "alice" true = Except.ok st2 ∧
      st2.storedTimezones = some (jsonStringify st2.userTimezones)) ∧
    (∃ st3, setTimezoneAction initialState "u1" "alice" "Europe/Berlin" false =
        Except.ok st3 ∧ saveFailWarning ∈ st3.log) ∧
    (∃ st4, removeTimezoneAction initialState "u1" "alice" false = Except.ok st4 ∧
      saveFailWarning ∈ st4.log) :=
  c5_persisted_blob_matches_registry initialState [] "u1" "alice" "Europe/Berlin" rfl

/-- Witness for C7 at a concrete input: the empty initial registry,
identity `"u1"`, zone `"Europe/Berlin"`. -/
theorem c7_persistence_failure_semantics_witness :
    (∃ st1, setTimezoneAction initialState "u1" "alice" "Europe/Berlin" false =
        Except.ok st1 ∧
      st1.userTimezones =
        JsValue.obj (objAssign [] "u1" (JsValue.str "Europe/Berlin")) ∧
      st1.storedTimezones = initialState.storedTimezones ∧
      saveFailWarning ∈ st1.log) ∧
    (∃ st2, removeTimezoneAction initialState "u1" "alice" false = Except.ok st2 ∧
      st2.userTimezones = JsValue.obj (List.filter (fun p => p.1 != "u1") []) ∧
      st2.storedTimezones = initialState.storedTimezones ∧
      saveFailWarning ∈ st2.log) ∧
    ("u1" ∉ List.map Prod.fst ([] : List (String × JsValue)) →
      ∃ st3, removeTimezoneAction initialState "u1" "alice" true = Except.ok st3 ∧
        st3.userTimezones = initialState.userTimezones) :=
  c7_persistence_failure_semantics initialState [] "u1" "alice" "Europe/Berlin" true rfl

/-- Witness for C8 at a concrete input: registry mapping `"u1"` to
Berlin, instant 2024-01-15T12:00:00Z, default options; the short form is
`"1:00 PM"` (13:00 Berlin time on a 12-hour clock). -/
theorem c8_long_form_contains_short_form_witness :
    formatUserTime berlinState "u1" sampleInstant false =
      Except.ok (some "1:00 PM") ∧
    ∃ p, formatUserTime berlinState "u1" sampleInstant true =
      Except.ok (some (p ++ "1:00 PM")) :=
  ⟨rfl, c8_long_form_contains_short_form berlinState "u1" sampleInstant "1:00 PM" rfl⟩
